import Mathlib

/-!
# Verification of the TeleCoder/OpenTL session-orchestration core

A shallow embedding, in Lean 4, of the parts of the engine that the
specification's claims are about:

* `pkg/engine` (`engine.go`): `failSession`, the idle-chat reaper,
  `SendChatMessage` / `runChatMessage`, `CreatePRFromChat`,
  `finalizeSession`, the multi-step finalisation block, and the
  `runSubTask` revision loop;
* `internal/session/store.go`: the append-only event log
  (`AddEvent` / `GetEvents`);
* `pkg/eventbus` (`eventbus.go`): `InMemoryBus.Subscribe` / `Publish`;
* `pkg/dispatcher` (`chain.go`): `ChainEvaluator.Evaluate`;
* `pkg/pipeline` (`pipeline.go`) together with the engine's `runSession`:
  decomposition and the `MaxSubTasks` cap.

Go structures become Lean structures; the SQLite tables become lists with
an auto-increment counter; channels become bounded buffers; every external
effect (LLM call, container exec, git push, PR creation) is passed in as an
explicit outcome value so that the control flow of the Go source can be
mirrored exactly.  Timestamps (`CreatedAt`/`UpdatedAt`) are not modelled:
no claim below depends on them.
-/

/-- Session status (`model.Status`, mirrored in `internal/session/store.go`):
`pending`, `running`, `complete`, `error`, `idle`. -/
inductive Status where
  | pending
  | running
  | complete
  | error
  | idle
deriving DecidableEq, Repr

/-- Session interaction mode (`model.Mode`): `task` or `chat`. -/
inductive Mode where
  | task
  | chat
deriving DecidableEq, Repr

/-- `model.ResultType` is a Go string; its zero value `""` is `unset`,
`"pr"` is `pr` and `"text"` is `text`. -/
inductive ResultType where
  | unset
  | pr
  | text
deriving DecidableEq, Repr

/-- `model.Result`: tagged result of a session (PR with url+number, or text). -/
structure Result where
  type : ResultType
  prUrl : String
  prNumber : Nat
  content : String
deriving DecidableEq, Repr

/-- The zero value of `model.Result`. -/
def Result.empty : Result := ⟨.unset, "", 0, ""⟩

/-- `model.Result{Type: model.ResultText, Content: content}`. -/
def Result.textResult (content : String) : Result := ⟨.text, "", 0, content⟩

/-- `model.Result{Type: model.ResultPR, PRUrl: url, PRNumber: n}`. -/
def Result.prResult (url : String) (n : Nat) : Result := ⟨.pr, url, n, ""⟩

/-- `model.Session`: the fields of the session row that the engine reads and
writes (`id`, `repo`, `prompt`, `agent`, `mode`, `status`, `branch`,
`pr_url`, `pr_number`, `container_id`, `error`, `result`, `chain_depth`).
Timestamps are omitted (no claim depends on them). -/
structure Session where
  id : String
  repo : String
  prompt : String
  agent : String
  mode : Mode
  status : Status
  branch : String
  prUrl : String
  prNumber : Nat
  containerID : String
  error : String
  result : Result
  chainDepth : Nat
deriving DecidableEq, Repr

/-- A session with every field at its zero value; concrete test sessions are
built by updating it. -/
def Session.empty : Session :=
  ⟨"", "", "", "", .task, .pending, "", "", 0, "", "", Result.empty, 0⟩

/-- `model.Message`: a chat message (`role` is `"user"` or `"assistant"`).
The session id and auto-increment id are implicit in the per-session list. -/
structure Message where
  role : String
  content : String
deriving DecidableEq, Repr

/-- An event as emitted by the engine (`model.Event` before the store assigns
an id): type tag and data payload.  The session id is implicit. -/
structure EmittedEvent where
  type : String
  data : String
deriving DecidableEq, Repr

/-! ## `Engine.failSession` (engine.go)

```go
func (e *Engine) failSession(sess *model.Session, errMsg string) {
    log.Printf(...)
    sess.Status = model.StatusError
    sess.Error = errMsg
    e.store.UpdateSession(sess)
    e.emitEvent(sess.ID, "error", errMsg)
}
```
`UpdateSession` writes `status`, `branch`, `pr_url`, `pr_number`,
`container_id`, `error` back to the row, so the session value below is also
the stored row. -/

namespace Engine

/-- `Engine.failSession`: sets `status = error` and stores the message. -/
def failSession (sess : Session) (errMsg : String) : Session :=
  { sess with status := .error, error := errMsg }

/-- The `error` event that `failSession` emits via `emitEvent`. -/
def failSessionEvent (errMsg : String) : EmittedEvent :=
  ⟨"error", errMsg⟩

/-! ## The idle-chat reaper (engine.go, `reapIdleChatSessions`)

Per-session body of the ticker loop:

```go
if sess.Mode != model.ModeChat || sess.Status != model.StatusIdle { continue }
if time.Since(sess.UpdatedAt) > e.config.ChatIdleTimeout {
    if sess.ContainerID != "" { e.sandbox.Stop(ctx, sess.ContainerID) }
    sess.Status = model.StatusError
    sess.Error = "session timed out due to inactivity"
    e.store.UpdateSession(sess)
    e.emitEvent(sess.ID, "status", "Session stopped (idle timeout)")
}
```
The clock comparison `time.Since(sess.UpdatedAt) > ChatIdleTimeout` is passed
in as the boolean `timedOut`.  The second component collects the container
ids passed to `Runtime.Stop`. -/

/-- One reaper step on one session: returns the updated session row and the
list of containers stopped. -/
def reapIdleChatSession (timedOut : Bool) (sess : Session) :
    Session × List String :=
  if sess.mode ≠ .chat ∨ sess.status ≠ .idle then (sess, [])
  else if timedOut then
    ({ sess with status := .error, error := "session timed out due to inactivity" },
     if sess.containerID ≠ "" then [sess.containerID] else [])
  else (sess, [])

/-! ## Fire-and-forget finalisation (engine.go, `finalizeSession`)

```go
if lastResult != nil && lastResult.resultType == model.ResultText {
    content := strings.Join(lastResult.outputLines, "\n")
    sess.Status = model.StatusComplete
    sess.Result = model.Result{Type: model.ResultText, Content: content}
    e.store.UpdateSession(sess); e.emitEvent(sess.ID, "done", content)
} else {
    ... // build PR title/body (does not touch the session row)
    prURL, prNumber, err := e.git.CreatePR(ctx, ...)
    if err != nil {
        e.failSession(sess, fmt.Sprintf("failed to create PR: %v", err))
        return                                  // NOTE: returns before the Stop below
    }
    sess.Status = model.StatusComplete
    sess.PRUrl = prURL; sess.PRNumber = prNumber
    sess.Result = model.Result{Type: model.ResultPR, PRUrl: prURL, PRNumber: prNumber}
    e.store.UpdateSession(sess); e.emitEvent(sess.ID, "done", prURL)
}
if lastResult != nil { e.sandbox.Stop(ctx, lastResult.containerID) }
```
The PR title/body construction and the `GetDefaultBranch` fallback only feed
`PROptions` and never touch the session row, so they are elided; the
`CreatePR` outcome is the explicit argument `createPR`. -/

/-- Summary of the last sandbox round (`sandboxRoundResult`) as used by
`finalizeSession`: container id, result type, accumulated output lines. -/
structure RoundSummary where
  containerID : String
  resultType : ResultType
  outputLines : List String
deriving DecidableEq, Repr

/-- `Engine.finalizeSession`: final session row and the containers stopped. -/
def finalizeSession (sess : Session) (lastResult : Option RoundSummary)
    (createPR : Except String (String × Nat)) : Session × List String :=
  match lastResult with
  | some r =>
    if r.resultType = .text then
      ({ sess with
          status := .complete,
          result := Result.textResult (String.intercalate "\n" r.outputLines) },
       [r.containerID])
    else
      match createPR with
      | .error e => (failSession sess ("failed to create PR: " ++ e), [])
      | .ok (url, n) =>
        ({ sess with
            status := .complete, prUrl := url, prNumber := n,
            result := Result.prResult url n },
         [r.containerID])
  | none =>
    match createPR with
    | .error e => (failSession sess ("failed to create PR: " ++ e), [])
    | .ok (url, n) =>
      ({ sess with
          status := .complete, prUrl := url, prNumber := n,
          result := Result.prResult url n },
       [])

/-! ## Multi-step finalisation (engine.go, tail of `runSessionMultiStep`)

```go
if anyCodeChanged {
    if err := e.pushBranch(ctx, containerID, sess.Branch); err != nil {
        e.failSession(sess, fmt.Sprintf("failed to push branch: %v", err))
        e.sandbox.Stop(ctx, containerID); return
    }
    ...
    prURL, prNumber, err := e.git.CreatePR(ctx, ...)
    if err != nil {
        e.failSession(sess, fmt.Sprintf("failed to create PR: %v", err))
        e.sandbox.Stop(ctx, containerID); return
    }
    sess.Status = model.StatusComplete
    sess.PRUrl = prURL; sess.PRNumber = prNumber
    sess.Result = model.Result{Type: model.ResultPR, ...}
    e.store.UpdateSession(sess); e.emitEvent(sess.ID, "done", prURL)
} else {
    sess.Status = model.StatusComplete
    sess.Result = model.Result{Type: model.ResultText,
        Content: "All steps completed without code changes."}
    e.store.UpdateSession(sess); e.emitEvent(...)
}
e.sandbox.Stop(ctx, containerID)
```
PR body construction is elided as before. -/

/-- Tail of `Engine.runSessionMultiStep`: push + PR (or text result) and stop
the persistent container.  Returns the session row and the stopped ids. -/
def multiStepFinalize (sess : Session) (containerID : String)
    (anyCodeChanged : Bool) (push : Except String Unit)
    (createPR : Except String (String × Nat)) : Session × List String :=
  if anyCodeChanged then
    match push with
    | .error e => (failSession sess ("failed to push branch: " ++ e), [containerID])
    | .ok _ =>
      match createPR with
      | .error e => (failSession sess ("failed to create PR: " ++ e), [containerID])
      | .ok (url, n) =>
        ({ sess with
            status := .complete, prUrl := url, prNumber := n,
            result := Result.prResult url n },
         [containerID])
  else
    ({ sess with
        status := .complete,
        result := Result.textResult "All steps completed without code changes." },
     [containerID])

/-! ## Chat sessions: state, `SendChatMessage`, `runChatMessage`,
`CreatePRFromChat` (engine.go)

The chat-relevant store state is the session row plus its message list.
`GetMessages` returns the list in id order; `AddMessage` appends. -/

/-- The store state for one chat session: the session row and its messages. -/
structure ChatState where
  session : Session
  messages : List Message
deriving DecidableEq, Repr

/-- Number of `"user"`-role messages (the loop in `SendChatMessage` counting
`m.Role == "user"`). -/
def userMsgCount (msgs : List Message) : Nat :=
  (msgs.filter (fun m => m.role == "user")).length

/-- `Engine.SendChatMessage` (synchronous part): validation, message-limit
check, and storing of the user message.  `chatMaxMessages` is
`e.config.ChatMaxMessages`.  On error the state is returned unchanged — the
Go code returns before any write. -/
def SendChatMessage (chatMaxMessages : Nat) (st : ChatState) (content : String) :
    ChatState × Except String Message :=
  if st.session.mode ≠ .chat then
    (st, .error ("session " ++ st.session.id ++ " is not a chat session"))
  else if st.session.status ≠ .idle then
    (st, .error "session is not idle (wait for current operation to finish)")
  else if st.session.containerID = "" then
    (st, .error "session has no container")
  else if chatMaxMessages ≤ userMsgCount st.messages then
    (st, .error "message limit reached")
  else
    let msg : Message := ⟨"user", content⟩
    ({ st with messages := st.messages ++ [msg] }, .ok msg)

/-- `Engine.runChatMessage`: the background agent run for one chat message.
`execResult` is the outcome of `sandbox.Exec` — `.error` when the agent
command fails to start, `.ok lines` the streamed output lines otherwise.
Returns the new state and the emitted events. -/
def runChatMessage (st : ChatState) (execResult : Except String (List String)) :
    ChatState × List EmittedEvent :=
  let running : EmittedEvent := ⟨"status", "Running agent..."⟩
  match execResult with
  | .error e =>
    ({ st with session := { st.session with status := .idle } },
     [running, ⟨"error", "Agent failed to start: " ++ e⟩])
  | .ok lines =>
    let joined := String.intercalate "\n" lines
    let assistantContent := if joined = "" then "(no output)" else joined
    ({ st with
        session := { st.session with status := .idle },
        messages := st.messages ++ [⟨"assistant", assistantContent⟩] },
     running :: lines.map (fun l => ⟨"output", l⟩) ++ [⟨"status", "Ready"⟩])

/-- One full chat turn: the synchronous `SendChatMessage` followed, when the
message was accepted, by the background `runChatMessage`. -/
def chatCycle (chatMaxMessages : Nat) (execResult : Except String (List String))
    (st : ChatState) (content : String) : ChatState × Except String Message :=
  match SendChatMessage chatMaxMessages st content with
  | (st1, .ok m) => ((runChatMessage st1 execResult).1, .ok m)
  | (st1, .error e) => (st1, .error e)

/-- Sequential chat turns (agent always exits with one output line), counting
how many sends were accepted. -/
def runChat (chatMaxMessages : Nat) (st : ChatState) :
    List String → ChatState × Nat
  | [] => (st, 0)
  | c :: cs =>
    match SendChatMessage chatMaxMessages st c with
    | (st1, .ok _) =>
      let st2 := (runChatMessage st1 (.ok ["done"])).1
      let r := runChat chatMaxMessages st2 cs
      (r.1, r.2 + 1)
    | (st1, .error _) => runChat chatMaxMessages st1 cs

/-- A freshly initialised chat session (after `initChatSession` succeeded):
mode `chat`, status `idle`, container id set, no messages. -/
def initialChatState (cid : String) : ChatState :=
  { session := { Session.empty with
                  mode := .chat, status := .idle, containerID := cid },
    messages := [] }

/-- `Engine.CreatePRFromChat`: validation, commit+push, PR creation.
`commitPush` is the outcome of `sandbox.CommitAndPush`, `createPR` of
`git.CreatePR`.  Every error path returns before the session row is written,
so the state is unchanged there; commit message and PR body construction
read the messages only. -/
def CreatePRFromChat (st : ChatState) (commitPush : Except String Unit)
    (createPR : Except String (String × Nat)) :
    ChatState × Except String (String × Nat) :=
  if st.session.mode ≠ .chat then
    (st, .error ("session " ++ st.session.id ++ " is not a chat session"))
  else if st.session.status ≠ .idle then
    (st, .error "session is not idle, wait for it to be idle")
  else if st.session.containerID = "" then
    (st, .error "session has no container")
  else
    match commitPush with
    | .error e => (st, .error ("commit/push failed: " ++ e))
    | .ok _ =>
      match createPR with
      | .error e => (st, .error ("failed to create PR: " ++ e))
      | .ok (url, n) =>
        ({ st with session := { st.session with
                                 prUrl := url, prNumber := n,
                                 status := .complete } },
         .ok (url, n))

/-! ## The `runSubTask` revision loop (engine.go)

```go
maxRounds := e.config.MaxRevisions
for round := 0; round <= maxRounds; round++ {
    result, err := e.runSandboxRoundWithAgent(ctx, sess, prompt, sessionAgent)
    if err != nil { return lastResult, err }
    ...
    if result.exitCode != 0 { return lastResult, fmt.Errorf(...) }
    if result.resultType == model.ResultText { return lastResult, nil }
    if e.verify != nil {
        verifyResult := e.runVerify(ctx, sess, result.containerID, taskPrompt)
        if verifyResult != nil && !verifyResult.Passed {
            if round >= maxRounds { /* emit, fall through */ } else { prompt = ...; continue }
        }
    }
    if e.review == nil || plan == "" { break }
    diff := e.getDiffFromContainer(ctx, result.containerID)
    if diff == "" { break }
    review, err := e.review.Review(ctx, taskPrompt, plan, diff)
    if err != nil { break }
    if review.Approved { break }
    if round >= maxRounds { break }
    prompt = pipeline.RevisePrompt(...)
}
```
Each iteration makes exactly one `runSandboxRoundWithAgent` call, i.e. starts
exactly one ephemeral container.  The environment below fixes the outcome of
every external call per round index; `subTaskRounds` counts the container
rounds executed. -/

/-- Outcome of one `runSandboxRoundWithAgent` call: container exit code and
the result type parsed from the marker lines. -/
structure RoundResult where
  exitCode : Int
  resultType : ResultType
deriving DecidableEq, Repr

/-- The external world of one `runSubTask` call: per-round sandbox outcomes,
whether verify/review stages are configured, per-round verify outcomes
(`none` = `runVerify` returned nil: no commands detected or analysis
failed), whether the plan stage produced a non-empty plan, per-round diff
non-emptiness, and per-round review outcomes (`none` = the review LLM call
failed, `some b` = returned with `Approved = b`). -/
structure SubTaskEnv where
  roundResult : Nat → Except String RoundResult
  verifyConfigured : Bool
  verifyOutcome : Nat → Option Bool
  reviewConfigured : Bool
  planNonEmpty : Bool
  diffNonEmpty : Nat → Bool
  reviewOutcome : Nat → Option Bool

/-- Whether, after a successful sandbox round `res` at index `r`, the loop
body reaches its end and iterates again (Go `continue`, or falling off the
revision assignment at the bottom of the loop).  All `return`/`break` paths
yield `false`.  When verify fails at `r ≥ maxRounds` the Go code falls
through to the review section; no branch there can `continue`, which the
disjunct `r < maxRounds` in both arms captures. -/
def roundContinues (env : SubTaskEnv) (maxRounds r : Nat) (res : RoundResult) :
    Bool :=
  if res.exitCode ≠ 0 then false
  else if res.resultType = .text then false
  else if env.verifyConfigured ∧ env.verifyOutcome r = some false then
    decide (r < maxRounds)
  else
    env.reviewConfigured && env.planNonEmpty && env.diffNonEmpty r &&
      (env.reviewOutcome r == some false) && decide (r < maxRounds)

/-- Counts the sandbox rounds executed starting at round `r` with `fuel`
remaining loop iterations (`fuel = maxRounds + 1 - r` at every call).  A
round whose sandbox call errors out still counted one `runSandboxRound`
attempt before `runSubTask` returns the error. -/
def subTaskRoundsAux (env : SubTaskEnv) (maxRounds : Nat) :
    Nat → Nat → Nat
  | _, 0 => 0
  | r, fuel + 1 =>
    match env.roundResult r with
    | .error _ => 1
    | .ok res =>
      if roundContinues env maxRounds r res then
        1 + subTaskRoundsAux env maxRounds (r + 1) fuel
      else 1

/-- Number of container rounds `runSubTask` executes with
`MaxRevisions = maxRounds`. -/
def subTaskRounds (env : SubTaskEnv) (maxRounds : Nat) : Nat :=
  subTaskRoundsAux env maxRounds 0 (maxRounds + 1)

end Engine

/-! ## The event log (`internal/session/store.go`)

`session_events` is a table with `id INTEGER PRIMARY KEY AUTOINCREMENT`:
every insert gets an id strictly larger than every id ever used, starting
at 1.  `AddEvent` inserts and reports the new id; `GetEvents` runs

```sql
SELECT ... FROM session_events WHERE session_id = ? AND id > ? ORDER BY id ASC
```

The table is modelled as the list of rows in insertion order plus the next
id the AUTOINCREMENT counter would hand out; `WF` states the counter
invariant, under which insertion order and id order agree, so the
`ORDER BY id ASC` result is the filtered list itself. -/

/-- A row of `session_events`: auto-increment id, session id, type, data. -/
structure EventRec where
  id : Nat
  sessionId : String
  type : String
  data : String
deriving DecidableEq, Repr

/-- The `session_events` table: rows in insertion order and the next
auto-increment id. -/
structure EventStore where
  events : List EventRec
  nextId : Nat
deriving DecidableEq, Repr

/-- A freshly migrated database: no rows, AUTOINCREMENT starts at 1. -/
def EventStore.emptyStore : EventStore := ⟨[], 1⟩

/-- The AUTOINCREMENT invariant: the counter is positive, every stored id is
below it, and ids increase along insertion order. -/
def EventStore.WF (st : EventStore) : Prop :=
  0 < st.nextId ∧ (∀ e ∈ st.events, e.id < st.nextId) ∧
    st.events.Pairwise (fun a b => a.id < b.id)

/-- `Store.AddEvent`: insert the event, assigning the next id (the Go code
writes the id back into `event.ID`; here the assigned row is returned). -/
def EventStore.addEvent (st : EventStore) (sid type data : String) :
    EventStore × EventRec :=
  let e : EventRec := ⟨st.nextId, sid, type, data⟩
  (⟨st.events ++ [e], st.nextId + 1⟩, e)

/-- `Store.GetEvents sessionID afterID`: the rows of that session with
`id > afterID`, in ascending id order (equal, under `WF`, to insertion
order). -/
def EventStore.getEvents (st : EventStore) (sid : String) (afterId : Nat) :
    List EventRec :=
  st.events.filter (fun e => e.sessionId == sid && decide (afterId < e.id))

/-- A sequence of `AddEvent` calls for one session (type/data payloads). -/
def EventStore.addEvents (st : EventStore) (sid : String)
    (ps : List (String × String)) : EventStore :=
  ps.foldl (fun acc p => (acc.addEvent sid p.1 p.2).1) st

/-- The rows that `addEvents` appends, given the counter value at the start:
consecutive ids from `startId`. -/
def mkEvents (startId : Nat) (sid : String) :
    List (String × String) → List EventRec
  | [] => []
  | p :: ps => ⟨startId, sid, p.1, p.2⟩ :: mkEvents (startId + 1) sid ps

/-! ## The event bus (`pkg/eventbus/eventbus.go`)

```go
func (b *InMemoryBus) Subscribe(sessionID string) chan *model.Event {
    ch := make(chan *model.Event, 64)
    b.subs[sessionID] = append(b.subs[sessionID], ch)
    return ch
}
func (b *InMemoryBus) Publish(sessionID string, event *model.Event) {
    for _, ch := range b.subs[sessionID] {
        select { case ch <- event: default: /* drop */ }
    }
}
```

A buffered Go channel is modelled as its capacity plus the queued events;
the non-blocking send `select/default` appends when the buffer has room and
drops the event otherwise.  The per-session map of subscriber slices is
flattened to one list of (session id, channel) pairs in subscription
order. -/

/-- A subscriber channel: capacity (set by `make(chan, 64)`) and the queued,
not-yet-received events. -/
structure BusChan where
  capacity : Nat
  buffer : List EventRec
deriving DecidableEq, Repr

/-- The bus registry: subscriber channels with the session they subscribed
to. -/
structure InMemoryBus where
  subs : List (String × BusChan)
deriving DecidableEq, Repr

/-- `InMemoryBus.Subscribe`: register and return a fresh channel of
capacity 64 with an empty buffer. -/
def InMemoryBus.subscribe (b : InMemoryBus) (sid : String) :
    InMemoryBus × BusChan :=
  let ch : BusChan := ⟨64, []⟩
  (⟨b.subs ++ [(sid, ch)]⟩, ch)

/-- The non-blocking send `select { case ch <- event: default: }`: enqueue
when the buffer has room, drop the event otherwise. -/
def sendNonBlocking (ch : BusChan) (ev : EventRec) : BusChan :=
  if ch.buffer.length < ch.capacity then ⟨ch.capacity, ch.buffer ++ [ev]⟩ else ch

/-- `InMemoryBus.Publish`: non-blocking send to every subscriber of the
session; subscribers of other sessions are untouched. -/
def InMemoryBus.publish (b : InMemoryBus) (sid : String) (ev : EventRec) :
    InMemoryBus :=
  ⟨b.subs.map (fun p => if p.1 = sid then (p.1, sendNonBlocking p.2 ev) else p)⟩

/-- All channels in the registry were created by `subscribe`, hence have
capacity 64. -/
def InMemoryBus.WF (b : InMemoryBus) : Prop :=
  ∀ p ∈ b.subs, p.2.capacity = 64

/-! ## `ChainEvaluator.Evaluate` (`pkg/dispatcher/chain.go`)

```go
func (ce *ChainEvaluator) Evaluate(ctx, sess) (*Decision, error) {
    if sess.ChainDepth >= ce.maxDepth {
        return nil, fmt.Errorf("chain depth limit reached (%d)", ce.maxDepth)
    }
    event := formatCompletionEvent(sess)
    dec, err := ce.dispatcher.Dispatch(ctx, ChannelGeneric, event)
    if err != nil { return nil, err }
    if dec.Action != "spawn" { return nil, nil }
    if dec.Repo == "" { dec.Repo = sess.Repo }
    return dec, nil
}
```

`Dispatch` (an LLM round trip) is the explicit argument `dispatch`; the
second component of the return value records whether it was invoked at
all. -/

/-- `dispatcher.Decision`: the structured routing decision. -/
structure Decision where
  action : String
  repo : String
  prompt : String
  agent : String
  reply : String
deriving DecidableEq, Repr

/-- The error text of the chain-depth guard. -/
def chainLimitError (maxDepth : Nat) : String :=
  "chain depth limit reached (" ++ toString maxDepth ++ ")"

/-- `formatCompletionEvent`: the completion summary handed to the
dispatcher.  (`content[:500]` truncates bytes in Go; `String.take`
truncates characters — the difference cannot affect any claim, the string
is only ever an opaque dispatcher input here.) -/
def formatCompletionEvent (sess : Session) : String :=
  match sess.result.type with
  | .pr =>
    "Session " ++ sess.id ++ " completed with a PR: " ++ sess.result.prUrl ++
      "\nRepo: " ++ sess.repo ++ "\nPrompt: " ++ sess.prompt
  | .text =>
    let content := sess.result.content
    let content := if content.length > 500 then content.take 500 ++ "..." else content
    "Session " ++ sess.id ++ " completed with text result.\nRepo: " ++ sess.repo ++
      "\nPrompt: " ++ sess.prompt ++ "\nResult: " ++ content
  | .unset =>
    "Session " ++ sess.id ++ " completed.\nRepo: " ++ sess.repo ++
      "\nPrompt: " ++ sess.prompt

/-- `ChainEvaluator.Evaluate` with `maxDepth` the configured limit and
`dispatch` the dispatcher's outcome on a given event string.  Returns the
(decision option, error) outcome and whether the dispatcher was called. -/
def ChainEvaluate (maxDepth : Nat) (dispatch : String → Except String Decision)
    (sess : Session) : Except String (Option Decision) × Bool :=
  if maxDepth ≤ sess.chainDepth then
    (.error (chainLimitError maxDepth), false)
  else
    match dispatch (formatCompletionEvent sess) with
    | .error e => (.error e, true)
    | .ok dec =>
      if dec.action ≠ "spawn" then (.ok none, true)
      else if dec.repo = "" then (.ok (some { dec with repo := sess.repo }), true)
      else (.ok (some dec), true)

/-! ## Decomposition and the `MaxSubTasks` cap
(`pkg/pipeline/pipeline.go`, `DecomposeStage.ExecuteWithMaxSubTasks`, and
`engine.go`, `runSession`)

```go
// pipeline.go
tasks, err := parseSubTasks(response)
if err != nil || len(tasks) == 0 {
    ctx.SubTasks = []SubTask{{Title: "Complete task", Description: ctx.Prompt}}
    return nil
}
ctx.SubTasks = tasks

// engine.go, runSession
maxST := e.config.MaxSubTasks
if maxST == 0 { maxST = 5 }
if err := e.decompose.ExecuteWithMaxSubTasks(pCtx, maxST); err != nil {
    subTasks = []pipeline.SubTask{{Title: "Complete task", Description: sess.Prompt}}
} else {
    subTasks = pCtx.SubTasks
    if len(subTasks) > maxST { subTasks = subTasks[:maxST] }
}
```

`ExecuteWithMaxSubTasks` errors exactly when the LLM call errors (`llmErr`);
the `parseSubTasks` outcome on the LLM's response is the argument `parsed`
(`.error` = no JSON array found / bad JSON), quantified over in the theorem
so that the bound holds for *every* response the LLM can produce. -/

/-- `pipeline.SubTask`. -/
structure SubTask where
  title : String
  description : String
deriving DecidableEq, Repr

/-- The single fallback sub-task `{Title: "Complete task", Description: prompt}`. -/
def fallbackSubTask (prompt : String) : SubTask :=
  ⟨"Complete task", prompt⟩

/-- `ExecuteWithMaxSubTasks` after the LLM call succeeded: parse-failure or
empty list falls back to the single sub-task, otherwise the parsed list is
taken as is (the stage itself never truncates). -/
def decomposeSubTasks (prompt : String)
    (parsed : Except String (List SubTask)) : List SubTask :=
  match parsed with
  | .error _ => [fallbackSubTask prompt]
  | .ok tasks => if tasks.length = 0 then [fallbackSubTask prompt] else tasks

/-- `maxST := e.config.MaxSubTasks; if maxST == 0 { maxST = 5 }`. -/
def resolveMaxSubTasks (cfgMaxSubTasks : Nat) : Nat :=
  if cfgMaxSubTasks = 0 then 5 else cfgMaxSubTasks

/-- The sub-task list `runSession` goes on to execute, when a Decompose
stage is configured: engine-level fallback on LLM error, then the
`subTasks[:maxST]` cap. -/
def engineSubTasks (prompt : String) (cfgMaxSubTasks : Nat) (llmErr : Bool)
    (parsed : Except String (List SubTask)) : List SubTask :=
  let maxST := resolveMaxSubTasks cfgMaxSubTasks
  if llmErr then [fallbackSubTask prompt]
  else
    let subTasks := decomposeSubTasks prompt parsed
    if subTasks.length > maxST then subTasks.take maxST else subTasks

/-! # Theorems -/

/-! ## C1 — `failSession` idempotency -/

/-- C1 (counterexample): the claim "calling `failSession` a second time
(with any message) leaves the error string stored by the first call" is
false: a second call with a different message overwrites the stored error
with the second message. -/
theorem C1_counterexample :
    (Engine.failSession (Engine.failSession Session.empty "first failure")
        "second failure").status = .error ∧
      (Engine.failSession (Engine.failSession Session.empty "first failure")
          "second failure").error ≠ "first failure" := by
  decide

/-- C1 (amended): a second `failSession` call still leaves `status = error`,
but the stored error string is the message of the **last** call; repeating
the call with the same message is a no-op. -/
theorem C1_failSession_last_message_wins (sess : Session) (m1 m2 : String) :
    (Engine.failSession (Engine.failSession sess m1) m2).status = .error ∧
      (Engine.failSession (Engine.failSession sess m1) m2).error = m2 ∧
      Engine.failSession (Engine.failSession sess m1) m1 =
        Engine.failSession sess m1 := by
  exact ⟨rfl, rfl, rfl⟩

/-! ## C2 — `container_id` and container lifetime -/

/-- C2 (counterexample): the idle-chat reaper stops the session's container
but does **not** clear `container_id` — after the reap the field still holds
the id of the stopped container, so `container_id` is non-empty while no
container exists. -/
theorem C2_counterexample :
    (Engine.reapIdleChatSession true
        { Session.empty with mode := .chat, status := .idle,
                             containerID := "c1" }).2 = ["c1"] ∧
      (Engine.reapIdleChatSession true
          { Session.empty with mode := .chat, status := .idle,
                               containerID := "c1" }).1.containerID ≠ "" := by
  decide

/-- C2 (amended): none of the engine's container-stopping finalisation paths
(idle-chat reaping, fire-and-forget finalisation, multi-step finalisation)
ever clears `container_id`: each leaves the session's `container_id` exactly
as it was, even after passing the container to `Runtime.Stop`. -/
theorem C2_containerID_never_cleared (timedOut : Bool) (sess : Session)
    (containerID : String) (anyCodeChanged : Bool) (push : Except String Unit)
    (lastResult : Option Engine.RoundSummary)
    (createPR : Except String (String × Nat)) :
    (Engine.reapIdleChatSession timedOut sess).1.containerID =
        sess.containerID ∧
      (Engine.finalizeSession sess lastResult createPR).1.containerID =
        sess.containerID ∧
      (Engine.multiStepFinalize sess containerID anyCodeChanged push
          createPR).1.containerID = sess.containerID := by
  refine ⟨?_, ?_, ?_⟩
  · unfold Engine.reapIdleChatSession
    split <;> [rfl; (split <;> rfl)]
  · unfold Engine.finalizeSession
    rcases lastResult with _ | r
    · rcases createPR with e | ⟨url, n⟩ <;> rfl
    · by_cases h : r.resultType = .text
      · simp only [h, if_pos]
      · simp only [if_neg h]
        rcases createPR with e | ⟨url, n⟩ <;> rfl
  · unfold Engine.multiStepFinalize
    rcases anyCodeChanged with _ | _
    · rfl
    · rcases push with e | _
      · rfl
      · rcases createPR with e | ⟨url, n⟩ <;> rfl

/-! ## C9 — decomposition bounds -/

/-- `resolveMaxSubTasks` is always at least 1. -/
theorem one_le_resolveMaxSubTasks (m : Nat) : 1 ≤ resolveMaxSubTasks m := by
  unfold resolveMaxSubTasks
  split
  · omega
  · omega

/-- `decomposeSubTasks` never returns the empty list. -/
theorem decomposeSubTasks_ne_nil (prompt : String)
    (parsed : Except String (List SubTask)) :
    1 ≤ (decomposeSubTasks prompt parsed).length := by
  unfold decomposeSubTasks
  rcases parsed with e | ts
  · simp [fallbackSubTask]
  · by_cases h : ts.length = 0
    · simp [h]
    · simp only [if_neg h]
      omega

/-- C9: whatever the LLM produces (an over-long list, unparseable text, an
empty list, or an outright LLM error), the sub-task list the session goes on
to execute has between 1 and `maxSubTasks` entries (`MaxSubTasks` resolved
with default 5), and in each fallback case it is the single sub-task whose
description is the prompt. -/
theorem C9_decomposition_bounds (prompt : String) (cfgMaxSubTasks : Nat)
    (llmErr : Bool) (parsed : Except String (List SubTask)) :
    (1 ≤ (engineSubTasks prompt cfgMaxSubTasks llmErr parsed).length ∧
       (engineSubTasks prompt cfgMaxSubTasks llmErr parsed).length ≤
         resolveMaxSubTasks cfgMaxSubTasks) ∧
      (llmErr = true →
        engineSubTasks prompt cfgMaxSubTasks llmErr parsed =
          [fallbackSubTask prompt]) ∧
      (∀ e, parsed = .error e →
        engineSubTasks prompt cfgMaxSubTasks false parsed =
          [fallbackSubTask prompt]) ∧
      (parsed = .ok [] →
        engineSubTasks prompt cfgMaxSubTasks false parsed =
          [fallbackSubTask prompt]) := by
  have hmax := one_le_resolveMaxSubTasks cfgMaxSubTasks
  refine ⟨?_, ?_, ?_, ?_⟩
  · unfold engineSubTasks
    rcases llmErr with _ | _
    · simp only [Bool.false_eq_true, if_neg, ite_false]
      have hne := decomposeSubTasks_ne_nil prompt parsed
      by_cases h : (decomposeSubTasks prompt parsed).length >
          resolveMaxSubTasks cfgMaxSubTasks
      · simp only [if_pos h, List.length_take]
        omega
      · simp only [if_neg h]
        omega
    · simp only [ite_true, List.length_cons, List.length_nil]
      omega
  · intro h
    subst h
    rfl
  · intro e he
    subst he
    have h1 : ¬ ([fallbackSubTask prompt].length > resolveMaxSubTasks cfgMaxSubTasks) := by
      simp only [List.length_singleton]
      omega
    simp [engineSubTasks, decomposeSubTasks, h1]
    omega
  · intro he
    subst he
    have h1 : ¬ ([fallbackSubTask prompt].length > resolveMaxSubTasks cfgMaxSubTasks) := by
      simp only [List.length_singleton]
      omega
    simp [engineSubTasks, decomposeSubTasks, h1]
    omega

/-! ## C7 — chain-depth guard -/

/-- C7: with `chain_depth ≥ maxDepth`, `ChainEvaluator.Evaluate` returns the
chain-depth-limit error, makes no dispatcher call, and produces no decision;
below the limit, a `spawn` decision whose repo is empty inherits the
parent's repo. -/
theorem C7_chain_depth_guard (maxDepth : Nat)
    (dispatch : String → Except String Decision) (sess : Session) :
    (maxDepth ≤ sess.chainDepth →
       ChainEvaluate maxDepth dispatch sess =
         (.error (chainLimitError maxDepth), false)) ∧
      (sess.chainDepth < maxDepth →
        ∀ d, dispatch (formatCompletionEvent sess) = .ok d →
          d.action = "spawn" → d.repo = "" →
          ChainEvaluate maxDepth dispatch sess =
            (.ok (some { d with repo := sess.repo }), true)) := by
  constructor
  · intro h
    unfold ChainEvaluate
    simp [h]
  · intro h d hd ha hr
    unfold ChainEvaluate
    rw [if_neg (by omega), hd]
    simp [ha, hr]

/-- C7 (witness): at depth 3 with limit 3 the evaluation is refused without
consulting the dispatcher, and at depth 2 a `spawn` decision with empty repo
inherits `"acme/api"` from the parent. -/
theorem C7_witness :
    (ChainEvaluate 3 (fun _ => .ok ⟨"spawn", "", "follow up", "", ""⟩)
        { Session.empty with repo := "acme/api", chainDepth := 3 } =
      (.error (chainLimitError 3), false)) ∧
      (ChainEvaluate 3 (fun _ => .ok ⟨"spawn", "", "follow up", "", ""⟩)
          { Session.empty with repo := "acme/api", chainDepth := 2 } =
        (.ok (some ⟨"spawn", "acme/api", "follow up", "", ""⟩), true)) := by
  constructor
  · exact (C7_chain_depth_guard 3 (fun _ => .ok ⟨"spawn", "", "follow up", "", ""⟩)
      { Session.empty with repo := "acme/api", chainDepth := 3 }).1 (by decide)
  · exact (C7_chain_depth_guard 3 (fun _ => .ok ⟨"spawn", "", "follow up", "", ""⟩)
      { Session.empty with repo := "acme/api", chainDepth := 2 }).2 (by decide)
      ⟨"spawn", "", "follow up", "", ""⟩ rfl rfl rfl

/-! ## C3 — PR-creation failure -/

/-- C3 (counterexample): on a valid idle chat session, a `CreatePR` failure
inside `CreatePRFromChat` is returned to the caller and the session row is
untouched — its status stays `idle` and its error field stays empty, so the
session does **not** become `error`. -/
theorem C3_counterexample :
    (Engine.CreatePRFromChat (Engine.initialChatState "c1") (.ok ())
        (.error "boom")).2 = .error "failed to create PR: boom" ∧
      (Engine.CreatePRFromChat (Engine.initialChatState "c1") (.ok ())
          (.error "boom")).1 = Engine.initialChatState "c1" ∧
      (Engine.CreatePRFromChat (Engine.initialChatState "c1") (.ok ())
          (.error "boom")).1.session.status ≠ .error := by
  exact ⟨rfl, rfl, by decide⟩

/-- C3 (amended): a PR-creation failure fails the session (status `error`,
error field set to the failure string) on the task finalisation paths —
`finalizeSession` (both with a PR-intent round summary and without one) and
the multi-step finalisation — but in `CreatePRFromChat` the failure is
returned to the caller and the chat session is left unchanged (still
`idle`). -/
theorem C3_pr_failure_fails_task_paths (sess : Session)
    (r : Engine.RoundSummary) (containerID e : String)
    (st : Engine.ChatState) (hr : r.resultType ≠ .text)
    (hmode : st.session.mode = .chat) (hidle : st.session.status = .idle)
    (hcont : st.session.containerID ≠ "") :
    ((Engine.finalizeSession sess (some r) (.error e)).1.status = .error ∧
       (Engine.finalizeSession sess (some r) (.error e)).1.error =
         "failed to create PR: " ++ e) ∧
      ((Engine.finalizeSession sess none (.error e)).1.status = .error ∧
       (Engine.finalizeSession sess none (.error e)).1.error =
         "failed to create PR: " ++ e) ∧
      ((Engine.multiStepFinalize sess containerID true (.ok ())
          (.error e)).1.status = .error ∧
       (Engine.multiStepFinalize sess containerID true (.ok ())
           (.error e)).1.error = "failed to create PR: " ++ e) ∧
      Engine.CreatePRFromChat st (.ok ()) (.error e) =
        (st, .error ("failed to create PR: " ++ e)) := by
  refine ⟨⟨?_, ?_⟩, ⟨rfl, rfl⟩, ⟨rfl, rfl⟩, ?_⟩
  · unfold Engine.finalizeSession
    simp [hr, Engine.failSession]
  · unfold Engine.finalizeSession
    simp [hr, Engine.failSession]
  · unfold Engine.CreatePRFromChat
    simp [hmode, hidle, hcont]

/-- C3 (witness): the amended statement at a concrete session, a PR-intent
round summary, and a fresh idle chat state. -/
theorem C3_pr_failure_witness :
    ((Engine.finalizeSession Session.empty (some ⟨"c9", .pr, []⟩)
        (.error "boom")).1.status = .error ∧
       (Engine.finalizeSession Session.empty (some ⟨"c9", .pr, []⟩)
           (.error "boom")).1.error = "failed to create PR: " ++ "boom") ∧
      ((Engine.finalizeSession Session.empty none (.error "boom")).1.status =
          .error ∧
       (Engine.finalizeSession Session.empty none (.error "boom")).1.error =
         "failed to create PR: " ++ "boom") ∧
      ((Engine.multiStepFinalize Session.empty "c9" true (.ok ())
          (.error "boom")).1.status = .error ∧
       (Engine.multiStepFinalize Session.empty "c9" true (.ok ())
           (.error "boom")).1.error = "failed to create PR: " ++ "boom") ∧
      Engine.CreatePRFromChat (Engine.initialChatState "c1") (.ok ())
          (.error "boom") =
        (Engine.initialChatState "c1",
         .error ("failed to create PR: " ++ "boom")) := by
  exact C3_pr_failure_fails_task_paths Session.empty ⟨"c9", .pr, []⟩ "c9" "boom"
    (Engine.initialChatState "c1") (by decide) rfl rfl (by decide)

/-! ## C10 — chat exec failure returns the session to idle -/

/-- C10: when the agent command fails to start while running a chat message,
`runChatMessage` emits an `error` event, appends no assistant message, and
returns the session to `idle`; a subsequent `SendChatMessage` on the session
(below the message limit) is accepted. -/
theorem C10_exec_failure_returns_idle (st : Engine.ChatState) (e : String)
    (k : Nat) (c : String) (hmode : st.session.mode = .chat)
    (hcont : st.session.containerID ≠ "")
    (hcount : Engine.userMsgCount st.messages < k) :
    (Engine.runChatMessage st (.error e)).1.session.status = .idle ∧
      (Engine.runChatMessage st (.error e)).1.messages = st.messages ∧
      ⟨"error", "Agent failed to start: " ++ e⟩ ∈
        (Engine.runChatMessage st (.error e)).2 ∧
      (Engine.SendChatMessage k (Engine.runChatMessage st (.error e)).1 c).2 =
        .ok ⟨"user", c⟩ := by
  refine ⟨rfl, rfl, by simp [Engine.runChatMessage], ?_⟩
  unfold Engine.SendChatMessage Engine.runChatMessage
  simp [hmode, hcont, hcount, Nat.not_le_of_lt hcount]

/-- C10 (witness): a concrete idle chat session whose agent exec fails. -/
theorem C10_witness :
    (Engine.runChatMessage (Engine.initialChatState "c1")
        (.error "no such file")).1.session.status = .idle ∧
      (Engine.runChatMessage (Engine.initialChatState "c1")
          (.error "no such file")).1.messages =
        (Engine.initialChatState "c1").messages ∧
      ⟨"error", "Agent failed to start: " ++ "no such file"⟩ ∈
        (Engine.runChatMessage (Engine.initialChatState "c1")
            (.error "no such file")).2 ∧
      (Engine.SendChatMessage 50
          (Engine.runChatMessage (Engine.initialChatState "c1")
              (.error "no such file")).1 "hello").2 = .ok ⟨"user", "hello"⟩ := by
  exact C10_exec_failure_returns_idle (Engine.initialChatState "c1")
    "no such file" 50 "hello" rfl (by decide) (by decide)

/-! ## C8 — chat message limit -/

/-- Appending a user message raises the user count by one. -/
theorem userMsgCount_append_user (msgs : List Message) (c : String) :
    Engine.userMsgCount (msgs ++ [⟨"user", c⟩]) =
      Engine.userMsgCount msgs + 1 := by
  simp [Engine.userMsgCount, List.filter_append]

/-- Appending an assistant message leaves the user count unchanged. -/
theorem userMsgCount_append_assistant (msgs : List Message) (c : String) :
    Engine.userMsgCount (msgs ++ [⟨"assistant", c⟩]) =
      Engine.userMsgCount msgs := by
  simp [Engine.userMsgCount, List.filter_append]

/-- Per-call behaviour of `SendChatMessage` on an idle chat session with a
container: a call below the limit stores exactly the user message and a call
at the limit is rejected with the state unchanged. -/
theorem sendChatMessage_cases (k : Nat) (st : Engine.ChatState) (c : String)
    (hmode : st.session.mode = .chat) (hidle : st.session.status = .idle)
    (hcont : st.session.containerID ≠ "") :
    (Engine.userMsgCount st.messages < k →
       Engine.SendChatMessage k st c =
         ({ st with messages := st.messages ++ [⟨"user", c⟩] },
          .ok ⟨"user", c⟩)) ∧
      (k ≤ Engine.userMsgCount st.messages →
        Engine.SendChatMessage k st c = (st, .error "message limit reached")) := by
  constructor
  · intro h
    unfold Engine.SendChatMessage
    simp [hmode, hidle, hcont, Nat.not_le_of_lt h]
  · intro h
    unfold Engine.SendChatMessage
    simp [hmode, hidle, hcont, h]

/-- Behaviour of a sequence of chat turns: with `u ≤ k` stored user messages,
`min n (k - u)` of `n` sends are accepted, the user count ends at
`min (u + n) k`, and the session stays an idle chat session with its
container. -/
theorem runChat_spec (k : Nat) (msgs : List String) (st : Engine.ChatState)
    (hmode : st.session.mode = .chat) (hidle : st.session.status = .idle)
    (hcont : st.session.containerID ≠ "")
    (hle : Engine.userMsgCount st.messages ≤ k) :
    (Engine.runChat k st msgs).2 =
        min msgs.length (k - Engine.userMsgCount st.messages) ∧
      Engine.userMsgCount (Engine.runChat k st msgs).1.messages =
        min (Engine.userMsgCount st.messages + msgs.length) k ∧
      (Engine.runChat k st msgs).1.session.mode = .chat ∧
      (Engine.runChat k st msgs).1.session.status = .idle ∧
      (Engine.runChat k st msgs).1.session.containerID =
        st.session.containerID := by
  induction msgs generalizing st with
  | nil =>
    refine ⟨by simp [Engine.runChat], ?_, hmode, hidle, rfl⟩
    simp [Engine.runChat]
    omega
  | cons c cs ih =>
    by_cases h : Engine.userMsgCount st.messages < k
    · have hsend := (sendChatMessage_cases k st c hmode hidle hcont).1 h
      set st1 : Engine.ChatState :=
        { st with messages := st.messages ++ [⟨"user", c⟩] } with hst1
      set st2 : Engine.ChatState := (Engine.runChatMessage st1 (.ok ["done"])).1
        with hst2
      have hst2m : st2.messages = st1.messages ++ [⟨"assistant", "done"⟩] := by
        have hdone : String.intercalate "\n" ["done"] = "done" := rfl
        simp only [hst2, Engine.runChatMessage, hdone]
        rw [if_neg (by decide)]
      have hcount2 : Engine.userMsgCount st2.messages =
          Engine.userMsgCount st.messages + 1 := by
        rw [hst2m, hst1]
        simp only
        rw [userMsgCount_append_assistant, userMsgCount_append_user]
      have hmode2 : st2.session.mode = .chat := hmode
      have hidle2 : st2.session.status = .idle := rfl
      have hcont2 : st2.session.containerID ≠ "" := hcont
      have hle2 : Engine.userMsgCount st2.messages ≤ k := by omega
      have hrec := ih st2 hmode2 hidle2 hcont2 hle2
      have hrun : Engine.runChat k st (c :: cs) =
          ((Engine.runChat k st2 cs).1, (Engine.runChat k st2 cs).2 + 1) := by
        rw [Engine.runChat, hsend]
      rw [hrun]
      refine ⟨?_, ?_, hrec.2.2.1, hrec.2.2.2.1, ?_⟩
      · rw [hrec.1, hcount2]
        simp only [List.length_cons]
        omega
      · rw [hrec.2.1, hcount2]
        simp only [List.length_cons]
        omega
      · rw [hrec.2.2.2.2]
        exact rfl
    · have hk : k ≤ Engine.userMsgCount st.messages := by omega
      have hsend := (sendChatMessage_cases k st c hmode hidle hcont).2 hk
      have hrec := ih st hmode hidle hcont hle
      have hrun : Engine.runChat k st (c :: cs) = Engine.runChat k st cs := by
        conv_lhs => rw [Engine.runChat, hsend]
      rw [hrun]
      refine ⟨?_, ?_, hrec.2.2.1, hrec.2.2.2.1, hrec.2.2.2.2⟩
      · rw [hrec.1]
        simp only [List.length_cons]
        omega
      · rw [hrec.2.1]
        omega

/-- C8: on a freshly initialised idle chat session with
`ChatMaxMessages = k`, a batch of `k` `SendChatMessage` calls is accepted in
full (each turn completing before the next), and the `(k+1)`-th call is
rejected with the "message limit reached" validation error, storing no
message and leaving the state exactly as it was; only user-role messages
were counted (each turn also stored one assistant message). -/
theorem C8_chat_message_limit (k : Nat) (cid : String) (msgs : List String)
    (c : String) (hcid : cid ≠ "") (hlen : msgs.length = k) :
    (Engine.runChat k (Engine.initialChatState cid) msgs).2 = k ∧
      Engine.userMsgCount
        (Engine.runChat k (Engine.initialChatState cid) msgs).1.messages = k ∧
      Engine.SendChatMessage k
          (Engine.runChat k (Engine.initialChatState cid) msgs).1 c =
        ((Engine.runChat k (Engine.initialChatState cid) msgs).1,
         .error "message limit reached") := by
  have h0 : Engine.userMsgCount (Engine.initialChatState cid).messages = 0 := rfl
  have hspec := runChat_spec k msgs (Engine.initialChatState cid) rfl rfl hcid
    (by rw [h0]; omega)
  have hacc : (Engine.runChat k (Engine.initialChatState cid) msgs).2 = k := by
    rw [hspec.1, h0, hlen]
    omega
  have hcnt : Engine.userMsgCount
      (Engine.runChat k (Engine.initialChatState cid) msgs).1.messages = k := by
    rw [hspec.2.1, h0, hlen]
    omega
  refine ⟨hacc, hcnt, ?_⟩
  exact (sendChatMessage_cases k _ c hspec.2.2.1 hspec.2.2.2.1
    (by rw [hspec.2.2.2.2]; exact hcid)).2 (by rw [hcnt])

/-- C8 (witness): with `ChatMaxMessages = 2`, two sends on a fresh chat
session are accepted and the third is rejected unchanged. -/
theorem C8_witness :
    (Engine.runChat 2 (Engine.initialChatState "c1") ["a", "b"]).2 = 2 ∧
      Engine.userMsgCount
        (Engine.runChat 2 (Engine.initialChatState "c1") ["a", "b"]).1.messages =
          2 ∧
      Engine.SendChatMessage 2
          (Engine.runChat 2 (Engine.initialChatState "c1") ["a", "b"]).1 "x" =
        ((Engine.runChat 2 (Engine.initialChatState "c1") ["a", "b"]).1,
         .error "message limit reached") := by
  exact C8_chat_message_limit 2 "c1" ["a", "b"] "x" (by decide) rfl

/-! ## C6 — bus subscribe/publish semantics -/

/-- C6: `Subscribe` returns a channel of capacity 64 with an empty buffer
(and keeps the registry well-formed); `Publish` keeps the registry intact
and, per subscriber: a subscriber of the published session with buffer room
receives the event at the end of its buffer, a subscriber of the session
with a full 64-slot buffer is left unchanged (the event is dropped), and a
subscriber of any other session is untouched. -/
theorem C6_bus_semantics (b : InMemoryBus) (hwf : b.WF) (sid : String)
    (ev : EventRec) :
    ((b.subscribe sid).2.capacity = 64 ∧ (b.subscribe sid).2.buffer = [] ∧
       (b.subscribe sid).1.WF) ∧
      (b.publish sid ev).subs.length = b.subs.length ∧
      ∀ (i : Nat) (s : String) (ch : BusChan), b.subs[i]? = some (s, ch) →
        ((s = sid → ch.buffer.length < 64 →
            (b.publish sid ev).subs[i]? = some (s, ⟨ch.capacity, ch.buffer ++ [ev]⟩)) ∧
         (s = sid → 64 ≤ ch.buffer.length →
            (b.publish sid ev).subs[i]? = some (s, ch)) ∧
         (s ≠ sid → (b.publish sid ev).subs[i]? = some (s, ch))) := by
  refine ⟨⟨rfl, rfl, ?_⟩, by simp [InMemoryBus.publish], ?_⟩
  · intro p hp
    simp only [InMemoryBus.subscribe, List.mem_append, List.mem_singleton] at hp
    rcases hp with hp | hp
    · exact hwf p hp
    · rw [hp]
  · intro i s ch hi
    have hmem : (s, ch) ∈ b.subs := List.getElem?_mem hi
    have hcap : ch.capacity = 64 := hwf (s, ch) hmem
    have hmap : (b.publish sid ev).subs[i]? =
        (b.subs[i]?).map
          (fun p => if p.1 = sid then (p.1, sendNonBlocking p.2 ev) else p) := by
      simp [InMemoryBus.publish]
    refine ⟨?_, ?_, ?_⟩
    · intro hs hroom
      rw [hmap, hi]
      simp only [Option.map_some']
      rw [if_pos hs]
      unfold sendNonBlocking
      rw [if_pos (by omega)]
    · intro hs hfull
      rw [hmap, hi]
      simp only [Option.map_some']
      rw [if_pos hs]
      unfold sendNonBlocking
      rw [if_neg (by omega)]
    · intro hs
      rw [hmap, hi]
      simp only [Option.map_some']
      rw [if_neg hs]

/-- C6 (witness): a registry with a same-session subscriber with room, a
same-session subscriber whose 64-slot buffer is full, and a subscriber of a
different session: the first receives the event, the second drops it, the
third is untouched. -/
theorem C6_witness :
    let e0 : EventRec := ⟨1, "s", "status", "x"⟩
    let full : BusChan := ⟨64, List.replicate 64 e0⟩
    let b : InMemoryBus := ⟨[("s", ⟨64, []⟩), ("s", full), ("t", ⟨64, []⟩)]⟩
    (b.publish "s" e0).subs[0]? = some ("s", ⟨64, [e0]⟩) ∧
      (b.publish "s" e0).subs[1]? = some ("s", full) ∧
      (b.publish "s" e0).subs[2]? = some ("t", ⟨64, []⟩) := by
  intro e0 full b
  have hwf : b.WF := by
    intro p hp
    simp only [b, List.mem_cons, List.not_mem_nil, or_false] at hp
    rcases hp with hp | hp | hp <;> rw [hp]
  have h := (C6_bus_semantics b hwf "s" e0).2.2
  refine ⟨?_, ?_, ?_⟩
  · have := (h 0 "s" ⟨64, []⟩ rfl).1 rfl (by decide)
    simpa using this
  · have := (h 1 "s" full rfl).2.1 rfl (by decide)
    simpa using this
  · have := (h 2 "t" ⟨64, []⟩ rfl).2.2 (by decide)
    simpa using this

/-! ## C4 — the revision-round bound -/

/-- Under the C4 hypotheses (round exits 0 with PR intent, verify passes or
is absent, plan present, review configured, non-empty diff, review never
approved) the loop body at round `r` iterates again exactly when
`r < maxRounds`. -/
theorem roundContinues_of_never_approved (env : Engine.SubTaskEnv)
    (maxRounds r : Nat)
    (hverify : env.verifyConfigured = false ∨ env.verifyOutcome r = some true)
    (hreview : env.reviewConfigured = true) (hplan : env.planNonEmpty = true)
    (hdiff : env.diffNonEmpty r = true)
    (hrev : env.reviewOutcome r = some false) :
    Engine.roundContinues env maxRounds r ⟨0, .pr⟩ = decide (r < maxRounds) := by
  unfold Engine.roundContinues
  have hv : ¬ (env.verifyConfigured = true ∧ env.verifyOutcome r = some false) := by
    rcases hverify with h | h
    · rintro ⟨h1, _⟩
      rw [h] at h1
      exact Bool.false_ne_true h1
    · rintro ⟨_, h2⟩
      rw [h] at h2
      simp at h2
  simp [hv, hreview, hplan, hdiff, hrev]

/-- The loop executes exactly its remaining fuel many rounds when every round
continues below `maxRounds` (invariant: `r + fuel = maxRounds + 1`). -/
theorem subTaskRoundsAux_full (env : Engine.SubTaskEnv) (maxRounds : Nat)
    (hround : ∀ i, env.roundResult i = .ok ⟨0, .pr⟩)
    (hverify : env.verifyConfigured = false ∨
      ∀ i, env.verifyOutcome i = some true)
    (hreview : env.reviewConfigured = true) (hplan : env.planNonEmpty = true)
    (hdiff : ∀ i, env.diffNonEmpty i = true)
    (hrev : ∀ i, env.reviewOutcome i = some false) :
    ∀ fuel r, r + fuel = maxRounds + 1 →
      Engine.subTaskRoundsAux env maxRounds r fuel = fuel := by
  intro fuel
  induction fuel with
  | zero => intro r _; rfl
  | succ f ihf =>
    intro r hr
    have hcont := roundContinues_of_never_approved env maxRounds r
      (hverify.imp (fun h => h) (fun h => h r)) hreview hplan (hdiff r) (hrev r)
    rw [Engine.subTaskRoundsAux, hround r]
    simp only
    rw [hcont]
    rcases Nat.eq_zero_or_pos f with hf | hf
    · subst hf
      have : ¬ r < maxRounds := by omega
      simp [this]
    · have hlt : r < maxRounds := by omega
      simp only [decide_eq_true_eq, if_pos hlt]
      rw [ihf (r + 1) (by omega)]
      omega

/-- C4: with `MaxRevisions = r`, a single-sub-task run whose plan and review
stages are configured, whose container rounds all exit 0 with PR intent,
whose verify passes (or is absent), whose diffs are non-empty, and whose
review call always returns unapproved, executes exactly `r + 1` container
rounds (round 0 plus `r` revision rounds) before `runSubTask` returns. -/
theorem C4_revision_rounds (env : Engine.SubTaskEnv) (r : Nat)
    (hround : ∀ i, env.roundResult i = .ok ⟨0, .pr⟩)
    (hverify : env.verifyConfigured = false ∨
      ∀ i, env.verifyOutcome i = some true)
    (hreview : env.reviewConfigured = true) (hplan : env.planNonEmpty = true)
    (hdiff : ∀ i, env.diffNonEmpty i = true)
    (hrev : ∀ i, env.reviewOutcome i = some false) :
    Engine.subTaskRounds env r = r + 1 := by
  unfold Engine.subTaskRounds
  exact subTaskRoundsAux_full env r hround hverify hreview hplan hdiff hrev
    (r + 1) 0 (by omega)

/-- C4 (witness): with `MaxRevisions = 1` and a review that never approves,
exactly 2 container rounds run. -/
theorem C4_witness :
    Engine.subTaskRounds
      { roundResult := fun _ => .ok ⟨0, .pr⟩
        verifyConfigured := false
        verifyOutcome := fun _ => none
        reviewConfigured := true
        planNonEmpty := true
        diffNonEmpty := fun _ => true
        reviewOutcome := fun _ => some false } 1 = 2 := by
  exact C4_revision_rounds _ 1 (fun _ => rfl) (Or.inl rfl) rfl rfl
    (fun _ => rfl) (fun _ => rfl)

/-! ## C5 — `GetEvents` ordering and round-trip -/

/-- `mkEvents` produces one row per payload. -/
theorem mkEvents_length (n : Nat) (sid : String) (ps : List (String × String)) :
    (mkEvents n sid ps).length = ps.length := by
  induction ps generalizing n with
  | nil => rfl
  | cons p ps ih => simp [mkEvents, ih]

/-- Every `mkEvents` row belongs to the session and has id at least the
starting id. -/
theorem mkEvents_mem (n : Nat) (sid : String) (ps : List (String × String)) :
    ∀ e ∈ mkEvents n sid ps, e.sessionId = sid ∧ n ≤ e.id := by
  induction ps generalizing n with
  | nil => intro e he; cases he
  | cons p ps ih =>
    intro e he
    rcases List.mem_cons.mp he with rfl | he2
    · exact ⟨rfl, Nat.le_refl n⟩
    · obtain ⟨h1, h2⟩ := ih (n + 1) e he2
      exact ⟨h1, by omega⟩

/-- The payloads of the `mkEvents` rows are the payloads written, in
order. -/
theorem mkEvents_map (n : Nat) (sid : String) (ps : List (String × String)) :
    (mkEvents n sid ps).map (fun e => (e.type, e.data)) = ps := by
  induction ps generalizing n with
  | nil => rfl
  | cons p ps ih => simp [mkEvents, ih]

/-- `addEvents` appends exactly the `mkEvents` rows and advances the
counter by the number of payloads. -/
theorem addEvents_eq (st : EventStore) (sid : String)
    (ps : List (String × String)) :
    EventStore.addEvents st sid ps =
      ⟨st.events ++ mkEvents st.nextId sid ps, st.nextId + ps.length⟩ := by
  induction ps generalizing st with
  | nil => simp [EventStore.addEvents, mkEvents]
  | cons p ps ih =>
    show EventStore.addEvents ((EventStore.addEvent st sid p.1 p.2).1) sid ps = _
    rw [ih]
    simp [EventStore.addEvent, mkEvents]
    omega

/-- C5: for every well-formed store, `GetEvents sid afterId` is sorted in
strictly ascending id order and contains exactly the session's events with
`id > afterId`; and writing `N` payloads for a session with no prior events
makes `GetEvents sid 0` return exactly those `N` events, with consecutive
ids from the old counter, in the order they were written. -/
theorem C5_getEvents_spec (st : EventStore) (hwf : st.WF) (sid : String)
    (afterId : Nat) :
    (st.getEvents sid afterId).Pairwise (fun a b => a.id < b.id) ∧
      (∀ e, e ∈ st.getEvents sid afterId ↔
        e ∈ st.events ∧ e.sessionId = sid ∧ afterId < e.id) ∧
      (∀ ps : List (String × String), (∀ e ∈ st.events, e.sessionId ≠ sid) →
        (EventStore.addEvents st sid ps).getEvents sid 0 =
            mkEvents st.nextId sid ps ∧
          ((EventStore.addEvents st sid ps).getEvents sid 0).length =
            ps.length ∧
          ((EventStore.addEvents st sid ps).getEvents sid 0).map
              (fun e => (e.type, e.data)) = ps) := by
  obtain ⟨hpos, hlt, hpw⟩ := hwf
  refine ⟨?_, ?_, ?_⟩
  · exact hpw.sublist (List.filter_sublist _)
  · intro e
    simp [EventStore.getEvents, List.mem_filter, and_assoc]
  · intro ps hfresh
    have hmain : (EventStore.addEvents st sid ps).getEvents sid 0 =
        mkEvents st.nextId sid ps := by
      rw [addEvents_eq]
      unfold EventStore.getEvents
      simp only [List.filter_append]
      have h1 : st.events.filter
          (fun e => e.sessionId == sid && decide (0 < e.id)) = [] := by
        apply List.filter_eq_nil_iff.mpr
        intro e he
        simp only [Bool.and_eq_true, beq_iff_eq, decide_eq_true_eq, not_and]
        intro hs
        exact absurd hs (hfresh e he)
      have h2 : (mkEvents st.nextId sid ps).filter
          (fun e => e.sessionId == sid && decide (0 < e.id)) =
            mkEvents st.nextId sid ps := by
        apply List.filter_eq_self.mpr
        intro e he
        obtain ⟨hs, hn⟩ := mkEvents_mem st.nextId sid ps e he
        simp only [Bool.and_eq_true, beq_iff_eq, decide_eq_true_eq]
        exact ⟨hs, by omega⟩
      rw [h1, h2, List.nil_append]
    refine ⟨hmain, ?_, ?_⟩
    · rw [hmain, mkEvents_length]
    · rw [hmain, mkEvents_map]

/-- C5 (witness): on a fresh store, writing two events for session `"s"` and
replaying with `GetEvents "s" 0` returns exactly those two events, ids 1 and
2, in write order. -/
theorem C5_witness :
    (EventStore.addEvents EventStore.emptyStore "s"
        [("status", "a"), ("output", "b")]).getEvents "s" 0 =
      [⟨1, "s", "status", "a"⟩, ⟨2, "s", "output", "b"⟩] := by
  have hwf : EventStore.emptyStore.WF :=
    ⟨by decide, fun e he => absurd he (List.not_mem_nil e), List.Pairwise.nil⟩
  have h := ((C5_getEvents_spec EventStore.emptyStore hwf "s" 0).2.2
    [("status", "a"), ("output", "b")] (by intro e he; cases he)).1
  rw [h]
  rfl
